import Mathlib

/-!
Verification development for the combo-chart rendering core
(`src/js/comboChart.js`), the configuration deep-merge
(`src/js/dataHandler.js` / the unnamed `Config.merge`), and the render
entry's data-caching behaviour.

Conventions of the shallow embedding:
* JavaScript numbers are modelled as rationals (`ℚ`); the source performs
  only field arithmetic on them in the fragments embedded here.
* `null`/`undefined`-able configuration fields are modelled as `Option`.
* JavaScript truthiness tests (`x || d`) on numbers/strings are modelled
  explicitly (`jsOrQ`, `jsOrStr`): `0`, `""`, `null` and `undefined` are
  falsy.
* Host-library behaviour that the code calls into (d3 band/linear scales,
  `nice`, the stable `Array.prototype.sort`, native `Date` parsing on the
  "Month YYYY" grammar the sort heuristic feeds it) is translated from the
  d3 v7 sources and the ECMAScript specification, as noted at each
  definition.
-/

namespace ComboSpec

/-- One normalized data row (`{dimension, bar1Value, bar2Value, lineValue, …}`,
spec §3); the host-formatted display strings ride along unused by the
geometry. -/
structure Row where
  dimension : String
  bar1Value : ℚ
  bar2Value : ℚ
  lineValue : ℚ
  bar1Formatted : String := ""
  bar2Formatted : String := ""
  lineFormatted : String := ""
  deriving Repr, DecidableEq

/-- Field-name map passed to `render` (spec §6). -/
structure FieldNames where
  dimension : String := ""
  bar1 : String := ""
  bar2 : String := ""
  line : String := ""
  deriving Repr, DecidableEq

/-- Per-axis settings relevant to scale computation
(`yAxisLeft`/`yAxisRight`): `min`/`max` are `null`-able, `includeZero` may
be absent (the code tests `includeZero !== false`). -/
structure AxisCfg where
  min : Option ℚ := none
  max : Option ℚ := none
  includeZero : Option Bool := none
  deriving Repr, DecidableEq

/-- The slice of the configuration tree read by the embedded fragments of
`comboChart.js`.  Fields the code reads with `?.`/`||`/`!== undefined`
guards are `Option`; the rest are assumed present after defaulting
(spec §3). -/
structure Config where
  barStyle : String := "grouped"
  barPadding : ℚ := 1/5
  barGap : Option ℚ := none
  barWidth : Option ℚ := none
  axisMode : String := "dual"
  syncDualAxis : Bool := false
  yAxisLeft : AxisCfg := {}
  yAxisRight : AxisCfg := {}
  xAxisSort : Option String := none
  lineVerticalPosition : Option String := none
  legendShow : Bool := true
  legendPosition : Option String := none
  barLabelsOffsetX : Option ℚ := none
  bar1LabelFontOffsetX : Option ℚ := none
  bar2LabelFontOffsetX : Option ℚ := none
  forceAnimationPreview : Bool := false
  deriving Repr, DecidableEq

/-- JavaScript `x || d` for a nullable number: `null`/`undefined` and `0`
are falsy. -/
def jsOrQ (o : Option ℚ) (d : ℚ) : ℚ :=
  match o with
  | some v => if v ≠ 0 then v else d
  | none => d

/-- JavaScript `x || d` for a nullable string: `null`/`undefined` and `""`
are falsy. -/
def jsOrStr (o : Option String) (d : String) : String :=
  match o with
  | some v => if v ≠ "" then v else d
  | none => d

/-- JavaScript `x !== undefined ? x : d` (`comboChart.js` line 701/702). -/
def jsUndef (o : Option ℚ) (d : ℚ) : ℚ := o.getD d

/-- `cfg.includeZero !== false`: absent counts as true. -/
def includeZeroOn (o : Option Bool) : Bool := o ≠ some false

/-! ### Date-detection sort heuristic (`createScales`, lines 235–268) -/

/-- ASCII lower-casing of one character (structural stand-in for the
host's case-insensitive month matching). -/
def lowerChar (c : Char) : Char :=
  if c = 'A' then 'a' else if c = 'B' then 'b' else if c = 'C' then 'c'
  else if c = 'D' then 'd' else if c = 'E' then 'e' else if c = 'F' then 'f'
  else if c = 'G' then 'g' else if c = 'H' then 'h' else if c = 'I' then 'i'
  else if c = 'J' then 'j' else if c = 'K' then 'k' else if c = 'L' then 'l'
  else if c = 'M' then 'm' else if c = 'N' then 'n' else if c = 'O' then 'o'
  else if c = 'P' then 'p' else if c = 'Q' then 'q' else if c = 'R' then 'r'
  else if c = 'S' then 's' else if c = 'T' then 't' else if c = 'U' then 'u'
  else if c = 'V' then 'v' else if c = 'W' then 'w' else if c = 'X' then 'x'
  else if c = 'Y' then 'y' else if c = 'Z' then 'z' else c

/-- Split a character list on single spaces (the `String.splitOn " "`
used to tokenize the date grammar). -/
def splitOnSpace : List Char → List (List Char)
  | [] => [[]]
  | c :: cs =>
      let r := splitOnSpace cs
      if c = ' ' then [] :: r
      else (c :: r.headD []) :: r.tail

/-- Month-name table (lower-cased full names and the three-letter forms
the host's `Date` parser accepts), as character lists. -/
def monthIndex (s : List Char) : Option ℕ :=
  let t := s.map lowerChar
  let names : List (List Char × ℕ) :=
    [("january".data, 0), ("february".data, 1), ("march".data, 2),
     ("april".data, 3), ("may".data, 4), ("june".data, 5), ("july".data, 6),
     ("august".data, 7), ("september".data, 8), ("october".data, 9),
     ("november".data, 10), ("december".data, 11),
     ("jan".data, 0), ("feb".data, 1), ("mar".data, 2), ("apr".data, 3),
     ("jun".data, 5), ("jul".data, 6), ("aug".data, 7), ("sep".data, 8),
     ("oct".data, 9), ("nov".data, 10), ("dec".data, 11)]
  (names.find? (fun p => p.1 = t)).map Prod.snd

/-- Digit test for the year pattern. -/
def isDigitCh (c : Char) : Bool := '0' ≤ c && c ≤ '9'

/-- Check that a token is a four-digit year. -/
def isYear4 (s : List Char) : Bool :=
  s.length = 4 && s.all isDigitCh

/-- Decimal value of a digit list. -/
def charsToNat : List Char → ℕ :=
  List.foldl (fun a c => a * 10 + (c.toNat - 48)) 0

/-- Host `new Date(str)` on the month/year grammar the heuristic feeds it
("Feb 2026", "February 2026", and the fallback's "February 1, 2026").
Timestamps are encoded as months since the epoch — order-isomorphic to the
host's milliseconds on this grammar, with the epoch at `0` as in the code's
`|| 0` fallback.  Token lists outside the grammar yield `none` (invalid
date). -/
def jsDateParseChars (cs : List Char) : Option ℤ :=
  match splitOnSpace cs with
  | [m, y] => do
      let idx ← monthIndex m
      if isYear4 y then
        pure (((charsToNat y : ℤ) - 1970) * 12 + (idx : ℤ))
      else none
  | [m, d, y] => do
      let idx ← monthIndex m
      if d = "1,".data ∧ isYear4 y then
        pure (((charsToNat y : ℤ) - 1970) * 12 + (idx : ℤ))
      else none
  | _ => none

/-- Word-character test of the regex `\w`. -/
def isWordCh (c : Char) : Bool :=
  isDigitCh c || ('a' ≤ c && c ≤ 'z') || ('A' ≤ c && c ≤ 'Z') || c = '_'

/-- Regex `^(\w+)\s+(\d{4})$` of `parseDate` (line 243): a word, a space
run, a four-digit year. -/
def monthYearMatch (cs : List Char) : Option (List Char × List Char) :=
  match splitOnSpace cs with
  | [a, b] =>
      if a ≠ [] ∧ a.all isWordCh ∧ isYear4 b then some (a, b) else none
  | _ => none

/-- `parseDate` (lines 237–249): empty string is falsy → `null`; try the
native parse; then the "Month YYYY" regex fallback re-parsed as
"Month 1, YYYY". -/
def parseDate (str : String) : Option ℤ :=
  if str = "" then none
  else match jsDateParseChars str.data with
  | some t => some t
  | none =>
      match monthYearMatch str.data with
      | some (m, y) => jsDateParseChars (m ++ " 1, ".data ++ y)
      | none => none

/-- Stable insertion into an accumulator: a new element goes after every
kept element `y` with `le y x`. -/
def stableInsert (le : Row → Row → Bool) (x : Row) : List Row → List Row
  | [] => [x]
  | y :: ys => if le y x then y :: stableInsert le x ys else x :: y :: ys

/-- Host `Array.prototype.sort`, which is stable (ES2019) and is called
here only with consistent comparators; any stable sort is extensionally
the same, and an insertion sort is the easiest to reason about.
`le a b` renders "comparator(a,b) ≤ 0". -/
def stableSortJs (le : Row → Row → Bool) (l : List Row) : List Row :=
  l.foldl (fun acc x => stableInsert le x acc) []

/-- Lexicographic code-point comparison of character lists. -/
def cmpCharLists : List Char → List Char → ℤ
  | [], [] => 0
  | [], _ :: _ => -1
  | _ :: _, [] => 1
  | a :: as, b :: bs =>
      if a < b then -1 else if b < a then 1 else cmpCharLists as bs

/-- `String.localeCompare` modelled as lexicographic code-point
comparison (the embedding uses it only on same-case ASCII strings, where
locale collation and code-point order agree). -/
def localeCmp (a b : String) : ℤ := cmpCharLists a.data b.data

/-- Sort resolution of `createScales` (lines 230–273): `asc`/`desc` sample
the first 3 dimension values, date-sort when ≥ 2 parse (unparseable rows
keyed to epoch `0`), else locale-compare; `reverse` reverses; anything
else keeps host order. -/
def sortData (sortOrder : String) (rows : List Row) : List Row :=
  if sortOrder = "asc" ∨ sortOrder = "desc" then
    let sampleDates := (rows.take 3).map (fun d => parseDate d.dimension)
    let isDateData := 2 ≤ (sampleDates.filter Option.isSome).length
    if isDateData then
      stableSortJs (fun a b =>
        let dateA := (parseDate a.dimension).getD 0
        let dateB := (parseDate b.dimension).getD 0
        if sortOrder = "asc" then dateA - dateB ≤ 0 else dateB - dateA ≤ 0) rows
    else
      stableSortJs (fun a b =>
        let cmp := localeCmp a.dimension b.dimension
        if sortOrder = "asc" then cmp ≤ 0 else -cmp ≤ 0) rows
  else if sortOrder = "reverse" then rows.reverse
  else rows

/-! ### d3 scales (v7 `d3-scale`/`d3-array`, as loaded by the page) -/

/-- d3 `scaleBand` with `padding(p)` (inner = `min(1,p)`, outer = `p`,
`align` 0.5, `round` false). -/
structure BandScale where
  domain : List String
  r0 : ℚ
  r1 : ℚ
  padding : ℚ
  deriving Repr, DecidableEq

/-- Inner padding: `paddingInner = Math.min(1, p)`. -/
def BandScale.inner (s : BandScale) : ℚ := min 1 s.padding

/-- Band step: `(stop-start) / max(1, n - paddingInner + paddingOuter*2)`. -/
def BandScale.step (s : BandScale) : ℚ :=
  (s.r1 - s.r0) / max 1 ((s.domain.length : ℚ) - s.inner + s.padding * 2)

/-- `bandwidth = step * (1 - paddingInner)`. -/
def BandScale.bandwidth (s : BandScale) : ℚ := s.step * (1 - s.inner)

/-- Aligned start of the first band. -/
def BandScale.start (s : BandScale) : ℚ :=
  s.r0 + (s.r1 - s.r0 - s.step * ((s.domain.length : ℚ) - s.inner)) * (1/2)

/-- Band position of a dimension value in the domain (the host returns
undefined outside the domain; the embedding is only applied to domain
members). -/
def BandScale.apply (s : BandScale) (d : String) : ℚ :=
  s.start + s.step * (s.domain.indexOf d : ℚ)

/-- d3 `scaleLinear` restricted to a two-point domain and range, as used
by the chart. -/
structure LinScale where
  d0 : ℚ
  d1 : ℚ
  r0 : ℚ
  r1 : ℚ
  deriving Repr, DecidableEq

/-- Linear scale application `r0 + (v-d0)/(d1-d0)*(r1-r0)` (degenerate
domains, which the host maps to NaN, land on `r0` via `ℚ`'s `x/0 = 0`;
no claim exercises them). -/
def LinScale.apply (s : LinScale) (v : ℚ) : ℚ :=
  s.r0 + (v - s.d0) / (s.d1 - s.d0) * (s.r1 - s.r0)

/-- d3 `tickIncrement(start, stop, count)` over `ℚ`.  The comparisons of
`error` against `√50`, `√10`, `√2` are encoded by squaring (`error ≥ 0`
always holds).  A non-positive raw step yields `0` (the host produces
NaN/±∞ there and `nice` leaves the domain unchanged, as does the model). -/
def tickIncrement (start stop : ℚ) (count : ℕ) : ℚ :=
  let step := (stop - start) / (count : ℚ)
  if 0 < step then
    let power : ℤ := Int.log 10 step
    let error := step / (10 : ℚ) ^ power
    let factor : ℚ :=
      if 50 ≤ error ^ 2 then 10 else if 10 ≤ error ^ 2 then 5
      else if 2 ≤ error ^ 2 then 2 else 1
    if 0 ≤ power then factor * (10 : ℚ) ^ power
    else -(10 : ℚ) ^ (-power) / factor
  else 0

/-- Iteration core of d3-scale's `nice(count)`: up to `maxIter = 10`
rounds; convergence (`step === prestep`) commits the widened endpoints,
a zero step or exhaustion leaves the original domain. -/
def niceCore (count : ℕ) : ℕ → ℚ → ℚ → Option ℚ → Option (ℚ × ℚ)
  | 0, _, _, _ => none
  | fuel + 1, start, stop, prestep =>
      let step := tickIncrement start stop count
      if some step = prestep then some (start, stop)
      else if 0 < step then
        niceCore count fuel (⌊start / step⌋ * step) (⌈stop / step⌉ * step) (some step)
      else if step < 0 then
        niceCore count fuel (⌈start * step⌉ / step) (⌊stop * step⌋ / step) (some step)
      else none

/-- d3 `scale.nice()` with the default count 10 on a two-point domain
(descending domains are processed on the swapped pair and written back
swapped, as in the host). -/
def d3nice (a b : ℚ) : ℚ × ℚ :=
  if b < a then
    match niceCore 10 10 b a none with
    | some (s, t) => (t, s)
    | none => (a, b)
  else
    match niceCore 10 10 a b none with
    | some (s, t) => (s, t)
    | none => (a, b)

/-- `d3.max(data, f)`: `none` on an empty array (the host's `undefined`). -/
def d3maxBy (f : Row → ℚ) : List Row → Option ℚ
  | [] => none
  | x :: xs => some (xs.foldl (fun a r => max a (f r)) (f x))

/-- `d3.min(data, f)`: `none` on an empty array. -/
def d3minBy (f : Row → ℚ) : List Row → Option ℚ
  | [] => none
  | x :: xs => some (xs.foldl (fun a r => min a (f r)) (f x))

/-! ### `createScales` (`comboChart.js` lines 229–355) -/

/-- `x !== null ? x : auto` — the override selection used at every
min/max site except the shared-mode max. -/
def selOverride (configured : Option ℚ) (auto : ℚ) : ℚ := configured.getD auto

/-- `x || auto` — the selection used for the shared-mode max
(line 352): a configured `0` is falsy and does not override. -/
def selOverrideFalsy (configured : Option ℚ) (auto : ℚ) : ℚ := jsOrQ configured auto

/-- `barMax` (lines 282–287): per-row sum for stacked bars, per-row max
otherwise, then the global max. -/
def barMaxOf (barStyle : String) (data : List Row) : Option ℚ :=
  if barStyle = "stacked" then d3maxBy (fun d => d.bar1Value + d.bar2Value) data
  else d3maxBy (fun d => max d.bar1Value d.bar2Value) data

/-- `lineMax` (line 289). -/
def lineMaxOf (data : List Row) : Option ℚ := d3maxBy (fun d => d.lineValue) data

/-- `barMin` (line 292). -/
def barMinOf (data : List Row) : Option ℚ :=
  d3minBy (fun d => min d.bar1Value d.bar2Value) data

/-- `lineMin` (lines 308/327/351). -/
def lineMinOf (data : List Row) : Option ℚ := d3minBy (fun d => d.lineValue) data

/-- Auto minimum for an axis: `0` when `includeZero !== false`, else
`seriesMin * 0.9` (lines 293, 309–310, 328). -/
def autoMin (includeZero : Option Bool) (seriesMin : ℚ) : ℚ :=
  if includeZeroOn includeZero then 0 else seriesMin * (9/10)

/-- `{upper:0.15, middle:0.35, lower:0.55, bottom:0.75}[vertPos] || 0`
(lines 340–345). -/
def rangeTopFraction (vertPos : String) : ℚ :=
  if vertPos = "upper" then 15/100
  else if vertPos = "middle" then 35/100
  else if vertPos = "lower" then 55/100
  else if vertPos = "bottom" then 75/100
  else 0

/-- Result of `createScales`: the sorted data, the three scales (domains
post-`nice`, ranges including the line vertical-position compression),
the pre-`nice` Y domains as passed to `.domain(...)`, and whether the
right scale is the alias of the left one (shared branch, line 353). -/
structure ScaleResult where
  sortedData : List Row
  xScale : BandScale
  yScaleLeft : LinScale
  yScaleRight : LinScale
  yLeftPre : ℚ × ℚ
  yRightPre : ℚ × ℚ
  rightIsAlias : Bool
  deriving Repr, DecidableEq

/-- `createScales` (lines 229–355), translated line by line.  It returns
`none` exactly when the data is empty, where the host's `d3.max`/`d3.min`
yield `undefined` and the scale domains are not numbers (spec §4.1
delegates the no-data case upstream). -/
def createScales (originalData : List Row) (cfg : Config) (width height : ℚ) :
    Option ScaleResult := do
  -- lines 230–273: always sort from the original data
  let sortedData := sortData (jsOrStr cfg.xAxisSort "default") originalData
  -- lines 276–279
  let xScale : BandScale :=
    { domain := sortedData.map (·.dimension), r0 := 0, r1 := width,
      padding := cfg.barPadding }
  -- lines 282–292
  let barMax ← barMaxOf cfg.barStyle sortedData
  let lineMax ← lineMaxOf sortedData
  let barMin ← barMinOf sortedData
  -- lines 293–300
  let yLeftAutoMin := autoMin cfg.yAxisLeft.includeZero barMin
  let yLeftMin := selOverride cfg.yAxisLeft.min yLeftAutoMin
  let yLeftMax := selOverride cfg.yAxisLeft.max (barMax * (11/10))
  let dom0 := d3nice yLeftMin yLeftMax
  let yScaleLeft0 : LinScale :=
    { d0 := dom0.1, d1 := dom0.2, r0 := height, r1 := 0 }
  if cfg.axisMode = "dual" then
    if cfg.syncDualAxis then
      -- lines 305–324
      let combinedMax := max barMax lineMax * (11/10)
      let lineMinVal ← lineMinOf sortedData
      let leftAutoMin := autoMin cfg.yAxisLeft.includeZero barMin
      let rightAutoMin := autoMin cfg.yAxisRight.includeZero lineMinVal
      let syncMin := min (selOverride cfg.yAxisLeft.min leftAutoMin)
        (selOverride cfg.yAxisRight.min rightAutoMin)
      let syncMax := max (selOverride cfg.yAxisLeft.max combinedMax)
        (selOverride cfg.yAxisRight.max combinedMax)
      let domL := d3nice syncMin syncMax
      let yScaleLeft : LinScale :=
        { d0 := domL.1, d1 := domL.2, r0 := height, r1 := 0 }
      let yScaleRight := yScaleLeft
      -- lines 337–347: line vertical position compresses the right range
      let vertPos := jsOrStr cfg.lineVerticalPosition "auto"
      let yScaleRight :=
        if vertPos ≠ "auto" ∧ vertPos ≠ "top" then
          { yScaleRight with r0 := height, r1 := height * rangeTopFraction vertPos }
        else yScaleRight
      pure { sortedData, xScale, yScaleLeft, yScaleRight,
             yLeftPre := (syncMin, syncMax), yRightPre := (syncMin, syncMax),
             rightIsAlias := false }
    else
      -- lines 326–335
      let lineMin ← lineMinOf sortedData
      let yRightAutoMin := autoMin cfg.yAxisRight.includeZero lineMin
      let yRightMin := selOverride cfg.yAxisRight.min yRightAutoMin
      let yRightMax := selOverride cfg.yAxisRight.max (lineMax * (11/10))
      let domR := d3nice yRightMin yRightMax
      let yScaleRight0 : LinScale :=
        { d0 := domR.1, d1 := domR.2, r0 := height, r1 := 0 }
      let vertPos := jsOrStr cfg.lineVerticalPosition "auto"
      let yScaleRight :=
        if vertPos ≠ "auto" ∧ vertPos ≠ "top" then
          { yScaleRight0 with r0 := height, r1 := height * rangeTopFraction vertPos }
        else yScaleRight0
      pure { sortedData, xScale, yScaleLeft := yScaleLeft0, yScaleRight,
             yLeftPre := (yLeftMin, yLeftMax), yRightPre := (yRightMin, yRightMax),
             rightIsAlias := false }
  else
    -- lines 348–354: shared axis; note the `||` (falsy) selection of the max
    let combinedMax := max barMax lineMax * (11/10)
    let lineMinS ← lineMinOf sortedData
    let sharedMin :=
      if includeZeroOn cfg.yAxisLeft.includeZero then 0
      else min barMin lineMinS * (9/10)
    let preMin := selOverride cfg.yAxisLeft.min sharedMin
    let preMax := selOverrideFalsy cfg.yAxisLeft.max combinedMax
    let domS := d3nice preMin preMax
    let yScaleLeft : LinScale :=
      { d0 := domS.1, d1 := domS.2, r0 := height, r1 := 0 }
    pure { sortedData, xScale, yScaleLeft, yScaleRight := yScaleLeft,
           yLeftPre := (preMin, preMax), yRightPre := (preMin, preMax),
           rightIsAlias := true }

/-! ### Bar geometry (`renderBars`, lines 692–877) and bar-label x
positions (`renderLabels`, lines 1016–1036).

The rectangles below are the final (post-animation) geometry: when
animation is enabled the transition's target attributes are exactly the
values assigned directly in the non-animated branch. -/

/-- An SVG rectangle (`x`/`y`/`width`/`height` attributes). -/
structure Rect where
  x : ℚ
  y : ℚ
  w : ℚ
  h : ℚ
  deriving Repr, DecidableEq

/-- `renderBars` (lines 692–877): the two series' rectangle lists.
Grouped branch lines 704–790, stacked branch lines 792–876. -/
def renderBarsRects (cfg : Config) (xs : BandScale) (yL : LinScale)
    (height : ℚ) (data : List Row) : List Rect × List Rect :=
  let bandWidth := xs.bandwidth
  let barGap := jsUndef cfg.barGap 4
  let barWidthPercent := jsUndef cfg.barWidth 100
  if cfg.barStyle = "grouped" then
    let autoBarWidth := (bandWidth - barGap) / 2
    let barWidth := autoBarWidth * (barWidthPercent / 100)
    let groupWidth := min (barWidth * 2 + barGap) bandWidth
    let groupOffset := (bandWidth - groupWidth) / 2
    (data.map (fun d =>
      { x := xs.apply d.dimension + groupOffset,
        y := yL.apply d.bar1Value, w := barWidth,
        h := height - yL.apply d.bar1Value }),
     data.map (fun d =>
      { x := xs.apply d.dimension + groupOffset + barWidth + barGap,
        y := yL.apply d.bar2Value, w := barWidth,
        h := height - yL.apply d.bar2Value }))
  else
    let autoStackWidth := bandWidth - 4
    let barWidth := autoStackWidth * (barWidthPercent / 100)
    let stackOffset := (bandWidth - barWidth) / 2
    (data.map (fun d =>
      { x := xs.apply d.dimension + stackOffset,
        y := yL.apply d.bar1Value, w := barWidth,
        h := height - yL.apply d.bar1Value }),
     data.map (fun d =>
      { x := xs.apply d.dimension + stackOffset,
        y := yL.apply (d.bar1Value + d.bar2Value), w := barWidth,
        h := yL.apply d.bar1Value - yL.apply (d.bar1Value + d.bar2Value) }))

/-- Bar-label x positions from `renderLabels` (lines 1020–1036): note
`config.barWidth || 0` and the treatment of the configured value as an
absolute pixel cap `Math.min(configBarWidth, autoW)`, plus the per-series
offset chains (lines 1046, 1056). -/
def barLabelXs (cfg : Config) (xs : BandScale) :
    (Row → ℚ) × (Row → ℚ) :=
  let bandWidth := xs.bandwidth
  let barGap := jsUndef cfg.barGap 4
  let configBarWidth := jsOrQ cfg.barWidth 0
  let bar1OffsetX := jsOrQ cfg.bar1LabelFontOffsetX (jsOrQ cfg.barLabelsOffsetX 0)
  let bar2OffsetX := jsOrQ cfg.bar2LabelFontOffsetX (jsOrQ cfg.barLabelsOffsetX 0)
  if cfg.barStyle = "grouped" then
    let autoW := (bandWidth - barGap) / 2
    let barWidth := if configBarWidth > 0 then min configBarWidth autoW else autoW
    let groupWidth := barWidth * 2 + barGap
    let groupOffset := (bandWidth - groupWidth) / 2
    ((fun d => xs.apply d.dimension + groupOffset + barWidth / 2 + bar1OffsetX),
     (fun d => xs.apply d.dimension + groupOffset + barWidth + barGap + barWidth / 2
        + bar2OffsetX))
  else
    ((fun d => xs.apply d.dimension + bandWidth / 2 + bar1OffsetX),
     (fun d => xs.apply d.dimension + bandWidth / 2 + bar2OffsetX))

/-! ### Render entry and cached-data state (`render`, lines 196–224;
`renderLegend` deferred re-render, lines 1242–1251) -/

/-- The engine's cached mutable state relevant to data flow (object
fields `originalData`, `data`, `config`, `_lastLegendPosition`). -/
structure EngineState where
  originalData : Option (List Row) := none
  data : Option (List Row) := none
  cfg : Option Config := none
  lastLegendPosition : Option String := none
  deriving Repr, DecidableEq

/-- `renderLegend` position tracking (lines 1242–1251): when the legend is
shown, record the position and report whether a deferred re-render is
scheduled (`prevPosition && prevPosition !== position`).  When
`legend.show` is false the function returns early (lines 1180–1183). -/
def renderLegendStep (last : Option String) (cfg : Config) :
    Option String × Bool :=
  if cfg.legendShow then
    let position := jsOrStr cfg.legendPosition "bottom"
    (some position,
     match last with
     | some p => p ≠ "" && p ≠ position
     | none => false)
  else (last, false)

/-- `render(data, fieldNames, config)` (lines 196–224) restricted to the
state and scale computation it performs; DOM drawing is carried by the
returned `ScaleResult`.  `args = none` models a call with no arguments
(as the deferred legend re-render makes): the parameter `config` is then
undefined and line 207 (`config.forceAnimationPreview`) throws a
TypeError — after lines 199–204 have already overwritten the cached
`originalData`/`data`/`config` with undefined.  The `Bool` in the result
reports whether `renderLegend` scheduled a deferred re-render. -/
def render (st : EngineState) (args : Option (List Row × FieldNames × Config))
    (width height : ℚ) :
    Except String (EngineState × Option ScaleResult × Bool) :=
  -- lines 199–204
  let dataArg : Option (List Row) := args.map (·.1)
  let st1 : EngineState :=
    { st with
      originalData := if dataArg ≠ st.data then dataArg else st.originalData,
      data := dataArg,
      cfg := args.map (·.2.2) }
  match args with
  | none => .error "TypeError: cannot read forceAnimationPreview of undefined"
  | some (rows, _, cfg) =>
      -- line 213: createScales sorts and assigns this.data (line 273)
      let source := st1.originalData.getD rows
      let sorted := sortData (jsOrStr cfg.xAxisSort "default") source
      let scales := createScales source cfg width height
      -- line 219: renderLegend
      let legend := renderLegendStep st1.lastLegendPosition cfg
      .ok ({ st1 with data := some sorted, lastLegendPosition := legend.1 },
           scales, legend.2)

/-- The deferred callback scheduled by `renderLegend` on a position change
(lines 1246–1250): `this.render()` — a call with no arguments. -/
def deferredLegendRerender (st : EngineState) (width height : ℚ) :
    Except String (EngineState × Option ScaleResult × Bool) :=
  render st none width height

/-! ### Configuration trees and `deepMerge`
(`dataHandler.js` lines 471–485; identical `Config.merge` in the unnamed
configuration module lines 390–404).

Configuration trees are JSON values (they travel through
`JSON.stringify`/`JSON.parse`, which are host built-ins and are the
identity on this model — `JSON.parse(JSON.stringify(v)) = v` for the
JSON-safe trees the configuration consists of). -/

/-- A JSON value. -/
inductive JValue where
  | null : JValue
  | bool : Bool → JValue
  | num : ℚ → JValue
  | str : String → JValue
  | arr : List JValue → JValue
  | obj : List (String × JValue) → JValue
  deriving Repr

/-- Whether a JSON value is a plain object (the merge recurses only into
these: `typeof v === 'object' && v !== null && !Array.isArray(v)`). -/
def JValue.isObj : JValue → Bool
  | .obj _ => true
  | _ => false

/-- JavaScript truthiness of a JSON value (`result[key] || {}`). -/
def JValue.truthy : JValue → Bool
  | .null => false
  | .bool b => b
  | .num n => n ≠ 0
  | .str s => s ≠ ""
  | .arr _ => true
  | .obj _ => true

/-- First-occurrence key lookup in an object's field list. -/
def jlookup (k : String) : List (String × JValue) → Option JValue
  | [] => none
  | (k', v) :: rest => if k' = k then some v else jlookup k rest

/-- JavaScript property write `result[key] = v`: replace the existing
entry in place, else append (property creation order). -/
def jset (k : String) (v : JValue) : List (String × JValue) → List (String × JValue)
  | [] => [(k, v)]
  | (k', v') :: rest =>
      if k' = k then (k', v) :: rest else (k', v') :: jset k v rest

/-- `result[key] || {}` (line 477). -/
def jsOrEmptyObj (o : Option JValue) : JValue :=
  match o with
  | some v => if v.truthy then v else .obj []
  | none => .obj []

mutual

/-- `deepMerge(defaults, overrides)` (lines 471–485).  The initial
`JSON.parse(JSON.stringify(defaults))` deep copy is the identity on the
model.  A non-object overlay contributes no enumerable plain-object keys,
so the copied defaults are returned unchanged (the call sites only ever
pass plain objects). -/
def deepMerge : JValue → JValue → JValue
  | .obj dfs, .obj ofs => .obj (mergeFields dfs ofs)
  | d, .obj ofs =>
      -- property writes on a primitive copy are lost; named properties on
      -- an array copy fall outside the JSON value model
      if d.isObj then .obj (mergeFields [] ofs) else d
  | d, _ => d

/-- The `for (const key in overrides)` loop (lines 474–482), folding the
overlay's entries into the copied defaults in order. -/
def mergeFields (dfs : List (String × JValue)) :
    List (String × JValue) → List (String × JValue)
  | [] => dfs
  | (k, v) :: rest =>
      let dfs' :=
        if v.isObj then
          jset k (deepMerge (jsOrEmptyObj (jlookup k dfs)) v) dfs
        else jset k v dfs
      mergeFields dfs' rest

end

/-- The merged child an overlay entry `(k, v)` produces against a
defaults slot `dOpt` (lines 476–480). -/
def mergeEntry (dOpt : Option JValue) (v : JValue) : JValue :=
  if v.isObj then deepMerge (jsOrEmptyObj dOpt) v else v

mutual

/-- Structural schema compatibility of an overlay with the defaults: at
every key both sides define, the two values are both plain objects
(recursively compatible) or both non-objects.  Saved configuration trees
are by construction shaped like the defaults, hence compatible. -/
def compat : JValue → JValue → Bool
  | .obj dfs, .obj ofs => compatFields dfs ofs
  | _, .obj _ => false
  | d, _ => !d.isObj

/-- Key-wise compatibility over the overlay's fields; keys absent from
the defaults are unconstrained. -/
def compatFields (dfs : List (String × JValue)) :
    List (String × JValue) → Bool
  | [] => true
  | (k, v) :: rest =>
      (match jlookup k dfs with
       | some dv => compat dv v
       | none => !v.isObj || compat (.obj []) v) && compatFields dfs rest

end

mutual

/-- Wellformedness of a JSON value: no duplicate keys in any object (the
output of `JSON.parse` is duplicate-free). -/
def jwf : JValue → Bool
  | .obj fs => nodupKeys fs && jwfFields fs
  | _ => true

/-- Duplicate-freedom of a field list's keys. -/
def nodupKeys : List (String × JValue) → Bool
  | [] => true
  | (k, _) :: rest => rest.all (fun p => p.1 ≠ k) && nodupKeys rest

/-- Wellformedness of every value in a field list. -/
def jwfFields : List (String × JValue) → Bool
  | [] => true
  | (_, v) :: rest => jwf v && jwfFields rest

end

/-- Path lookup in a JSON tree (dotted config paths, descending only
through plain objects). -/
def getPath : JValue → List String → Option JValue
  | v, [] => some v
  | .obj fs, k :: ks =>
      match jlookup k fs with
      | some v => getPath v ks
      | none => none
  | _, _ :: _ => none

/-- Full bar-geometry pass: `render` wires `createScales`' outputs into
`renderBars` (lines 213/216) using `this.height` and the sorted
`this.data`. -/
def renderPassBars (data : List Row) (cfg : Config) (width height : ℚ) :
    Option (List Rect × List Rect) :=
  (createScales data cfg width height).map fun r =>
    renderBarsRects cfg r.xScale r.yScaleLeft height r.sortedData

/-- Projection of a render outcome onto the legend-deferral flag. -/
def scheduledOf (e : Except String (EngineState × Option ScaleResult × Bool)) :
    Option Bool :=
  match e with
  | .ok (_, _, b) => some b
  | .error _ => none

/-- Projection of a render outcome onto the resulting engine state. -/
def stateOf (e : Except String (EngineState × Option ScaleResult × Bool)) :
    EngineState :=
  match e with
  | .ok (s, _, _) => s
  | .error _ => {}

/-! ## Library lemmas about the embedded operations -/

theorem jlookup_jset_self (k : String) (v : JValue) (l : List (String × JValue)) :
    jlookup k (jset k v l) = some v := by
  induction l with
  | nil => simp [jset, jlookup]
  | cons hd tl ih =>
      obtain ⟨k', v'⟩ := hd
      by_cases h : k' = k
      · simp [jset, jlookup, h]
      · simp [jset, jlookup, h, ih]

theorem jlookup_jset_other (k k' : String) (v : JValue)
    (l : List (String × JValue)) (h : k' ≠ k) :
    jlookup k (jset k' v l) = jlookup k l := by
  induction l with
  | nil => simp [jset, jlookup, h]
  | cons hd tl ih =>
      obtain ⟨k'', v''⟩ := hd
      by_cases h2 : k'' = k'
      · subst h2
        simp [jset, jlookup, h]
      · have h4 : ¬ k = k' := fun he => h he.symm
        by_cases h3 : k'' = k
        · simp [jset, jlookup, h2, h3, h4]
        · simp [jset, jlookup, h2, h3, ih]

theorem jlookup_eq_none_of_not_mem (k : String) (l : List (String × JValue))
    (h : ¬ k ∈ l.map Prod.fst) : jlookup k l = none := by
  induction l with
  | nil => rfl
  | cons hd tl ih =>
      obtain ⟨k', v'⟩ := hd
      simp only [List.map_cons, List.mem_cons] at h
      push_neg at h
      have h1 : ¬ k' = k := fun he => h.1 he.symm
      simp [jlookup, h1, ih h.2]

theorem jlookup_mergeFields_not_mem (k : String)
    (dfs ofs : List (String × JValue)) (h : ¬ k ∈ ofs.map Prod.fst) :
    jlookup k (mergeFields dfs ofs) = jlookup k dfs := by
  induction ofs generalizing dfs with
  | nil => rfl
  | cons hd tl ih =>
      obtain ⟨k0, v0⟩ := hd
      simp only [List.map_cons, List.mem_cons] at h
      push_neg at h
      have hne : k0 ≠ k := fun he => h.1 he.symm
      show jlookup k (mergeFields (if v0.isObj then _ else _) tl) = _
      by_cases hv : v0.isObj
      · simp only [hv, if_pos]
        rw [ih _ h.2, jlookup_jset_other _ _ _ _ hne]
      · simp only [hv, if_neg, Bool.false_eq_true, not_false_iff]
        rw [ih _ h.2, jlookup_jset_other _ _ _ _ hne]

theorem jlookup_mergeFields (k : String) (ov : JValue)
    (dfs ofs : List (String × JValue)) (hnd : nodupKeys ofs = true)
    (hk : jlookup k ofs = some ov) :
    jlookup k (mergeFields dfs ofs) = some (mergeEntry (jlookup k dfs) ov) := by
  induction ofs generalizing dfs with
  | nil => simp [jlookup] at hk
  | cons hd tl ih =>
      obtain ⟨k0, v0⟩ := hd
      simp only [nodupKeys, Bool.and_eq_true, Bool.not_eq_true'] at hnd
      have hmf : mergeFields dfs ((k0, v0) :: tl)
          = mergeFields (jset k0 (mergeEntry (jlookup k0 dfs) v0) dfs) tl := by
        by_cases hv : v0.isObj
        · simp [mergeFields, mergeEntry, hv]
        · simp [mergeFields, mergeEntry, hv]
      by_cases h0 : k0 = k
      · have hk0 : v0 = ov := by
          rw [show jlookup k ((k0, v0) :: tl) = if k0 = k then some v0
                else jlookup k tl from rfl, if_pos h0] at hk
          exact Option.some.inj hk
        have hnm : ¬ k ∈ tl.map Prod.fst := by
          intro hmem
          obtain ⟨⟨k1, v1⟩, hp, hfst⟩ := List.mem_map.mp hmem
          have := List.all_eq_true.mp hnd.1 _ hp
          simp only [decide_eq_true_eq] at this
          simp only [] at hfst
          exact this (hfst.trans h0.symm)
        rw [hmf, jlookup_mergeFields_not_mem _ _ _ hnm, h0, jlookup_jset_self, hk0]
      · have hne : k0 ≠ k := h0
        rw [show jlookup k ((k0, v0) :: tl) = if k0 = k then some v0
              else jlookup k tl from rfl, if_neg hne] at hk
        rw [hmf, ih _ hnd.2 hk, jlookup_jset_other _ _ _ _ hne]

theorem compatFields_lookup (dfs ofs : List (String × JValue)) (k : String)
    (ov : JValue) (hc : compatFields dfs ofs = true)
    (hk : jlookup k ofs = some ov) :
    (∀ dv, jlookup k dfs = some dv → compat dv ov = true) ∧
    (jlookup k dfs = none → ov.isObj = true → compat (.obj []) ov = true) := by
  induction ofs with
  | nil => simp [jlookup] at hk
  | cons hd tl ih =>
      obtain ⟨k0, v0⟩ := hd
      rw [show compatFields dfs ((k0, v0) :: tl)
            = ((match jlookup k0 dfs with
                | some dv => compat dv v0
                | none => !v0.isObj || compat (.obj []) v0) && compatFields dfs tl)
          from rfl, Bool.and_eq_true] at hc
      by_cases h0 : k0 = k
      · rw [show jlookup k ((k0, v0) :: tl) = if k0 = k then some v0
              else jlookup k tl from rfl, if_pos h0] at hk
        obtain rfl : v0 = ov := Option.some.inj hk
        subst h0
        constructor
        · intro dv hdv
          rw [hdv] at hc
          exact hc.1
        · intro hdv hobj
          rw [hdv] at hc
          have := hc.1
          rw [hobj] at this
          simpa using this
      · rw [show jlookup k ((k0, v0) :: tl) = if k0 = k then some v0
              else jlookup k tl from rfl, if_neg h0] at hk
        exact ih hc.2 hk

theorem jwfFields_lookup (fs : List (String × JValue)) (k : String)
    (v : JValue) (h : jwfFields fs = true) (hk : jlookup k fs = some v) :
    jwf v = true := by
  induction fs with
  | nil => simp [jlookup] at hk
  | cons hd tl ih =>
      obtain ⟨k0, v0⟩ := hd
      rw [show jwfFields ((k0, v0) :: tl) = (jwf v0 && jwfFields tl) from rfl,
        Bool.and_eq_true] at h
      by_cases h0 : k0 = k
      · rw [show jlookup k ((k0, v0) :: tl) = if k0 = k then some v0
              else jlookup k tl from rfl, if_pos h0] at hk
        obtain rfl : v0 = v := Option.some.inj hk
        exact h.1
      · rw [show jlookup k ((k0, v0) :: tl) = if k0 = k then some v0
              else jlookup k tl from rfl, if_neg h0] at hk
        exact ih h.2 hk

theorem getPath_nil (v : JValue) : getPath v [] = some v := by
  cases v <;> rfl

theorem jlookup_ne_none_of_mem (k : String) (v : JValue)
    (l : List (String × JValue)) (h : (k, v) ∈ l) : jlookup k l ≠ none := by
  induction l with
  | nil => simp at h
  | cons hd tl ih =>
      obtain ⟨k2, v2⟩ := hd
      rcases List.mem_cons.mp h with h2 | h2
      · obtain ⟨rfl, rfl⟩ := Prod.mk.inj h2.symm
        simp [jlookup]
      · by_cases he : k2 = k
        · simp [jlookup, he]
        · simpa [jlookup, he] using ih h2

theorem getPath_deepMerge_overlay (path : List String) (d o v : JValue)
    (hc : compat d o = true) (ho : o.isObj = true) (hwf : jwf o = true)
    (hp : getPath o path = some v) (hleaf : v.isObj = false) :
    getPath (deepMerge d o) path = some v := by
  induction path generalizing d o with
  | nil =>
      rw [getPath_nil] at hp
      obtain rfl : o = v := Option.some.inj hp
      rw [ho] at hleaf
      exact absurd hleaf (by simp)
  | cons k ks ih =>
      cases o with
      | obj ofs =>
          cases d with
          | obj dfs =>
              rw [show getPath (.obj ofs) (k :: ks)
                    = (match jlookup k ofs with
                       | some w => getPath w ks
                       | none => none) from rfl] at hp
              cases hkv : jlookup k ofs with
              | none => rw [hkv] at hp; exact absurd hp (by simp)
              | some ov =>
                  rw [hkv] at hp
                  have hcf : compatFields dfs ofs = true := hc
                  have hwf2 : nodupKeys ofs = true ∧ jwfFields ofs = true := by
                    have := hwf
                    rw [show jwf (.obj ofs) = (nodupKeys ofs && jwfFields ofs)
                      from rfl, Bool.and_eq_true] at this
                    exact this
                  have hm : jlookup k (mergeFields dfs ofs)
                      = some (mergeEntry (jlookup k dfs) ov) :=
                    jlookup_mergeFields k ov dfs ofs hwf2.1 hkv
                  rw [show deepMerge (.obj dfs) (.obj ofs)
                        = .obj (mergeFields dfs ofs) from rfl]
                  rw [show getPath (.obj (mergeFields dfs ofs)) (k :: ks)
                        = (match jlookup k (mergeFields dfs ofs) with
                           | some w => getPath w ks
                           | none => none) from rfl, hm]
                  cases hov : ov.isObj with
                  | false =>
                      rw [show mergeEntry (jlookup k dfs) ov
                            = if ov.isObj then _ else ov from rfl, if_neg (by simp [hov])]
                      cases ks with
                      | nil => exact hp
                      | cons k2 ks2 =>
                          cases ov with
                          | obj _ => simp [JValue.isObj] at hov
                          | null => exact absurd hp (by simp [getPath])
                          | bool b => exact absurd hp (by simp [getPath])
                          | num q => exact absurd hp (by simp [getPath])
                          | str s => exact absurd hp (by simp [getPath])
                          | arr a => exact absurd hp (by simp [getPath])
                  | true =>
                      rw [show mergeEntry (jlookup k dfs) ov
                            = if ov.isObj then deepMerge (jsOrEmptyObj (jlookup k dfs)) ov
                              else ov from rfl, if_pos (by simp [hov])]
                      have hwfov : jwf ov = true := jwfFields_lookup ofs k ov hwf2.2 hkv
                      have hcl := compatFields_lookup dfs ofs k ov hcf hkv
                      cases hdv : jlookup k dfs with
                      | some dv =>
                          have hcdv : compat dv ov = true := hcl.1 dv hdv
                          have hdvobj : dv.isObj = true := by
                            cases dv with
                            | obj _ => rfl
                            | null => cases ov with
                              | obj _ => exact absurd hcdv (by simp [compat])
                              | _ => simp [JValue.isObj] at hov
                            | bool b => cases ov with
                              | obj _ => exact absurd hcdv (by simp [compat])
                              | _ => simp [JValue.isObj] at hov
                            | num q => cases ov with
                              | obj _ => exact absurd hcdv (by simp [compat])
                              | _ => simp [JValue.isObj] at hov
                            | str s => cases ov with
                              | obj _ => exact absurd hcdv (by simp [compat])
                              | _ => simp [JValue.isObj] at hov
                            | arr a => cases ov with
                              | obj _ => exact absurd hcdv (by simp [compat])
                              | _ => simp [JValue.isObj] at hov
                          rw [show jsOrEmptyObj (some dv)
                                = if dv.truthy then dv else .obj [] from rfl,
                            if_pos (by cases dv <;> simp_all [JValue.truthy, JValue.isObj])]
                          exact ih dv ov hcdv hov hwfov hp
                      | none =>
                          have hcob : compat (.obj []) ov = true := hcl.2 hdv hov
                          rw [show jsOrEmptyObj none = .obj [] from rfl]
                          exact ih (.obj []) ov hcob hov hwfov hp
          | null => exact absurd hc (by simp [compat])
          | bool b => exact absurd hc (by simp [compat])
          | num q => exact absurd hc (by simp [compat])
          | str s => exact absurd hc (by simp [compat])
          | arr a => exact absurd hc (by simp [compat])
      | null => simp [JValue.isObj] at ho
      | bool b => simp [JValue.isObj] at ho
      | num q => simp [JValue.isObj] at ho
      | str s => simp [JValue.isObj] at ho
      | arr a => simp [JValue.isObj] at ho

theorem getPath_deepMerge_defaults (path : List String) (d o v : JValue)
    (hc : compat d o = true) (ho : o.isObj = true) (hwf : jwf o = true)
    (habs : getPath o path = none) (hd : getPath d path = some v) :
    getPath (deepMerge d o) path = some v := by
  induction path generalizing d o with
  | nil => rw [getPath_nil] at habs; exact absurd habs (by simp)
  | cons k ks ih =>
      cases o with
      | obj ofs =>
          cases d with
          | obj dfs =>
              rw [show getPath (.obj ofs) (k :: ks)
                    = (match jlookup k ofs with
                       | some w => getPath w ks
                       | none => none) from rfl] at habs
              rw [show getPath (.obj dfs) (k :: ks)
                    = (match jlookup k dfs with
                       | some w => getPath w ks
                       | none => none) from rfl] at hd
              have hcf : compatFields dfs ofs = true := hc
              have hwf2 : nodupKeys ofs = true ∧ jwfFields ofs = true := by
                have := hwf
                rw [show jwf (.obj ofs) = (nodupKeys ofs && jwfFields ofs)
                  from rfl, Bool.and_eq_true] at this
                exact this
              cases hdk : jlookup k dfs with
              | none => rw [hdk] at hd; exact absurd hd (by simp)
              | some dv =>
                  rw [hdk] at hd
                  rw [show deepMerge (.obj dfs) (.obj ofs)
                        = .obj (mergeFields dfs ofs) from rfl]
                  rw [show getPath (.obj (mergeFields dfs ofs)) (k :: ks)
                        = (match jlookup k (mergeFields dfs ofs) with
                           | some w => getPath w ks
                           | none => none) from rfl]
                  cases hkv : jlookup k ofs with
                  | none =>
                      have hnm : ¬ k ∈ ofs.map Prod.fst := by
                        intro hmem
                        obtain ⟨⟨k1, v1⟩, hp1, hf1⟩ := List.mem_map.mp hmem
                        simp only [] at hf1
                        subst hf1
                        exact jlookup_ne_none_of_mem _ _ _ hp1 hkv
                      rw [jlookup_mergeFields_not_mem _ _ _ hnm, hdk]
                      exact hd
                  | some ov =>
                      rw [hkv] at habs
                      rw [jlookup_mergeFields k ov dfs ofs hwf2.1 hkv, hdk]
                      have hcl := (compatFields_lookup dfs ofs k ov hcf hkv).1 dv hdk
                      cases hov : ov.isObj with
                      | false =>
                          have hdvleaf : dv.isObj = false := by
                            cases ov with
                            | obj _ => simp [JValue.isObj] at hov
                            | null => cases dv <;> first
                                | rfl
                                | exact absurd hcl (by simp [compat, JValue.isObj])
                            | bool b2 => cases dv <;> first
                                | rfl
                                | exact absurd hcl (by simp [compat, JValue.isObj])
                            | num q2 => cases dv <;> first
                                | rfl
                                | exact absurd hcl (by simp [compat, JValue.isObj])
                            | str s2 => cases dv <;> first
                                | rfl
                                | exact absurd hcl (by simp [compat, JValue.isObj])
                            | arr a2 => cases dv <;> first
                                | rfl
                                | exact absurd hcl (by simp [compat, JValue.isObj])
                          cases ks with
                          | nil =>
                              have habs2 : getPath ov [] = none := habs
                              rw [getPath_nil] at habs2
                              exact absurd habs2 (by simp)
                          | cons k2 ks2 =>
                              have hd2 : getPath dv (k2 :: ks2) = some v := hd
                              cases dv with
                              | obj _ => simp [JValue.isObj] at hdvleaf
                              | null => exact absurd hd2 (by simp [getPath])
                              | bool b3 => exact absurd hd2 (by simp [getPath])
                              | num q3 => exact absurd hd2 (by simp [getPath])
                              | str s3 => exact absurd hd2 (by simp [getPath])
                              | arr a3 => exact absurd hd2 (by simp [getPath])
                      | true =>
                          have hdvobj : dv.isObj = true := by
                            cases dv with
                            | obj _ => rfl
                            | null => cases ov with
                              | obj _ => exact absurd hcl (by simp [compat])
                              | _ => simp [JValue.isObj] at hov
                            | bool b2 => cases ov with
                              | obj _ => exact absurd hcl (by simp [compat])
                              | _ => simp [JValue.isObj] at hov
                            | num q2 => cases ov with
                              | obj _ => exact absurd hcl (by simp [compat])
                              | _ => simp [JValue.isObj] at hov
                            | str s2 => cases ov with
                              | obj _ => exact absurd hcl (by simp [compat])
                              | _ => simp [JValue.isObj] at hov
                            | arr a2 => cases ov with
                              | obj _ => exact absurd hcl (by simp [compat])
                              | _ => simp [JValue.isObj] at hov
                          rw [show mergeEntry (some dv) ov
                                = if ov.isObj then deepMerge (jsOrEmptyObj (some dv)) ov
                                  else ov from rfl, if_pos (by simp [hov])]
                          rw [show jsOrEmptyObj (some dv)
                                = if dv.truthy then dv else .obj [] from rfl,
                            if_pos (by cases dv <;> simp_all [JValue.truthy, JValue.isObj])]
                          have hwfov : jwf ov = true :=
                            jwfFields_lookup ofs k ov hwf2.2 hkv
                          exact ih dv ov hcl hov hwfov habs hd
          | null => exact absurd hc (by simp [compat])
          | bool b => exact absurd hc (by simp [compat])
          | num q => exact absurd hc (by simp [compat])
          | str s => exact absurd hc (by simp [compat])
          | arr a => exact absurd hc (by simp [compat])
      | null => simp [JValue.isObj] at ho
      | bool b => simp [JValue.isObj] at ho
      | num q => simp [JValue.isObj] at ho
      | str s => simp [JValue.isObj] at ho
      | arr a => simp [JValue.isObj] at ho

/-! ## Claim theorems -/

/-- C7: for every configuration tree (a duplicate-key-free JSON object
structurally compatible with the defaults — saved configurations have the
defaults' shape), serializing and deserializing (host `JSON`, the
identity on the tree model) and deep-merging with the defaults reproduces
every explicitly-set leaf (scalar, `null`, or array — the overlay wins
there) exactly, and every path absent from the overlay keeps its value
from the defaults (the merge recurses into plain objects). -/
theorem config_merge_round_trip (defaults overlay : JValue)
    (path : List String) (v : JValue)
    (hc : compat defaults overlay = true) (ho : overlay.isObj = true)
    (hwf : jwf overlay = true) :
    (getPath overlay path = some v → v.isObj = false →
       getPath (deepMerge defaults overlay) path = some v) ∧
    (getPath overlay path = none → getPath defaults path = some v →
       getPath (deepMerge defaults overlay) path = some v) :=
  ⟨fun h1 h2 => getPath_deepMerge_overlay path defaults overlay v hc ho hwf h1 h2,
   fun h1 h2 => getPath_deepMerge_defaults path defaults overlay v hc ho hwf h1 h2⟩

/-- Defaults tree fragment for the merge witness (colors from
`getDefaultConfig`). -/
def mergeDefaultsW : JValue :=
  .obj [("barPadding", .num (1/5)),
    ("bar1", .obj [("color", .str "#4e79a7"), ("opacity", .num 1)])]

/-- Saved-overlay tree fragment for the merge witness. -/
def mergeOverlayW : JValue := .obj [("bar1", .obj [("color", .str "#ff0000")])]

/-- Witness for C7 at a concrete defaults/overlay pair: the explicitly-set
leaf survives, absent leaves take the defaults. -/
theorem config_merge_round_trip_witness :
    getPath (deepMerge mergeDefaultsW mergeOverlayW) ["bar1", "color"]
      = some (.str "#ff0000")
    ∧ getPath (deepMerge mergeDefaultsW mergeOverlayW) ["bar1", "opacity"]
      = some (.num 1)
    ∧ getPath (deepMerge mergeDefaultsW mergeOverlayW) ["barPadding"]
      = some (.num (1/5)) :=
  ⟨(config_merge_round_trip mergeDefaultsW mergeOverlayW ["bar1", "color"]
      (.str "#ff0000") rfl rfl rfl).1 rfl rfl,
   (config_merge_round_trip mergeDefaultsW mergeOverlayW ["bar1", "opacity"]
      (.num 1) rfl rfl rfl).2 rfl rfl,
   (config_merge_round_trip mergeDefaultsW mergeOverlayW ["barPadding"]
      (.num (1/5)) rfl rfl rfl).2 rfl rfl⟩

/-- C3: with `barStyle='stacked'`, for every row the second (top) segment
rests exactly on the first: `segment2.y + segment2.height = segment1.y`,
with `segment1.y = yScaleLeft(bar1Value)` and
`segment2.y = yScaleLeft(bar1Value + bar2Value)` — exact in the rational
model, hence within floating-point tolerance in the host. -/
theorem stacked_bars_flush (cfg : Config) (xs : BandScale) (yL : LinScale)
    (height : ℚ) (data : List Row) (p : Rect × Rect)
    (hstyle : cfg.barStyle = "stacked")
    (hp : p ∈ List.zip (renderBarsRects cfg xs yL height data).1
        (renderBarsRects cfg xs yL height data).2) :
    p.2.y + p.2.h = p.1.y ∧
    ∃ d ∈ data, p.1.y = yL.apply d.bar1Value
      ∧ p.2.y = yL.apply (d.bar1Value + d.bar2Value) := by
  have hne : ¬ (cfg.barStyle = "grouped") := by rw [hstyle]; decide
  rw [show renderBarsRects cfg xs yL height data
        = (if cfg.barStyle = "grouped" then _ else _) from rfl, if_neg hne] at hp
  rw [List.zip_map'] at hp
  obtain ⟨d, hd, rfl⟩ := List.mem_map.mp hp
  refine ⟨by ring, d, hd, rfl, rfl⟩

/-- Concrete stacked config for the C3 witness. -/
def cfgC3 : Config := { barStyle := "stacked" }

/-- Concrete band scale for the C3 witness. -/
def xsC3 : BandScale := { domain := ["A"], r0 := 0, r1 := 450, padding := 1/5 }

/-- Concrete left linear scale for the C3 witness. -/
def ylC3 : LinScale := { d0 := 0, d1 := 22, r0 := 300, r1 := 0 }

/-- Concrete row for the C3 witness. -/
def rowC3 : Row := ⟨"A", 10, 8, 5, "", "", ""⟩

/-- First zipped stacked-segment pair at the C3 witness input. -/
def pC3 : Rect × Rect :=
  (List.zip (renderBarsRects cfgC3 xsC3 ylC3 300 [rowC3]).1
    (renderBarsRects cfgC3 xsC3 ylC3 300 [rowC3]).2).headD
    (⟨0, 0, 0, 0⟩, ⟨0, 0, 0, 0⟩)

/-- Witness for C3 at a concrete row and scale. -/
theorem stacked_bars_flush_witness : pC3.2.y + pC3.2.h = pC3.1.y :=
  (stacked_bars_flush cfgC3 xsC3 ylC3 300 [rowC3] pC3 rfl
    (List.mem_cons_self _ _)).1

/-- C4: with `axisMode='shared'`, after `createScales` the right Y scale
is the alias of the left one — identical domain and range (the code
assigns `this.yScaleRight = this.yScaleLeft`). -/
theorem shared_axis_alias (data : List Row) (cfg : Config) (w h : ℚ)
    (r : ScaleResult) (hmode : cfg.axisMode = "shared")
    (hr : createScales data cfg w h = some r) :
    r.yScaleRight = r.yScaleLeft ∧ r.rightIsAlias = true
      ∧ r.yRightPre = r.yLeftPre := by
  have hne : ¬ (cfg.axisMode = "dual") := by rw [hmode]; decide
  simp only [createScales, Option.bind_eq_bind, Option.bind_eq_some, if_neg hne,
    Option.pure_def, Option.some_inj] at hr
  obtain ⟨bm, hbm, lm, hlm, bmn, hbmn, lmn, hlmn, hr⟩ := hr
  rw [← hr]
  exact ⟨rfl, rfl, rfl⟩

/-- Unfolding of a successful `render` call's resulting engine state:
the original (unsorted) data is cached only when the argument is new data
(line 199), and `this.data` is replaced by the sort of the cached
original (lines 230–273). -/
theorem render_ok_state (st : EngineState) (rows : List Row)
    (fns : FieldNames) (cfg : Config) (w h : ℚ) :
    stateOf (render st (some (rows, fns, cfg)) w h) =
      { originalData := if some rows ≠ st.data then some rows else st.originalData,
        data := some (sortData (jsOrStr cfg.xAxisSort "default")
          ((if some rows ≠ st.data then some rows else st.originalData).getD rows)),
        cfg := some cfg,
        lastLegendPosition := (renderLegendStep st.lastLegendPosition cfg).1 } := rfl

/-- C2: a render followed by a resize-style re-render with the (already
sorted, cached) data and the same sort order yields the identical
dimension order and the same cached original data: the sort is always
recomputed from the cached unsorted original, so repeated re-renders
never compound a reversal or re-sort sorted output.  The well-formedness
hypothesis (`originalData` is only ever absent before any data arrives)
holds of the initial state and is preserved by every render. -/
theorem render_rerender_idempotent (st : EngineState) (rows d1 : List Row)
    (fns fns2 : FieldNames) (cfg : Config) (w h w2 h2 : ℚ)
    (hwf : st.originalData = none → st.data = none)
    (hd1 : (stateOf (render st (some (rows, fns, cfg)) w h)).data = some d1) :
    (stateOf (render (stateOf (render st (some (rows, fns, cfg)) w h))
        (some (d1, fns2, cfg)) w2 h2)).data
      = (stateOf (render st (some (rows, fns, cfg)) w h)).data
    ∧ (stateOf (render (stateOf (render st (some (rows, fns, cfg)) w h))
        (some (d1, fns2, cfg)) w2 h2)).originalData
      = (stateOf (render st (some (rows, fns, cfg)) w h)).originalData := by
  rw [render_ok_state] at hd1 ⊢
  rw [render_ok_state]
  by_cases hC : some rows ≠ st.data
  · rw [if_pos hC] at hd1 ⊢
    simp only [Option.getD_some] at hd1 ⊢
    obtain rfl : sortData (jsOrStr cfg.xAxisSort "default") rows = d1 :=
      Option.some.inj hd1
    simp
  · rw [if_neg hC] at hd1 ⊢
    push_neg at hC
    cases hOr : st.originalData with
    | none =>
        have hdn := hwf hOr
        rw [hdn] at hC
        exact absurd hC (by simp)
    | some o =>
        simp only [] at hd1 ⊢
        simp only [Option.getD_some] at hd1 ⊢
        obtain rfl : sortData (jsOrStr cfg.xAxisSort "default") o = d1 := by
          rw [hOr] at hd1
          exact Option.some.inj hd1
        simp

/-- Concrete engine state for the C2 witness. -/
def rowsC2 : List Row := [⟨"B", 1, 1, 1, "", "", ""⟩, ⟨"A", 2, 2, 2, "", "", ""⟩]

/-- Concrete reverse-sort config for the C2 witness. -/
def cfgC2 : Config := { xAxisSort := some "reverse" }

/-- Witness for C2: from the initial state, a render with `sort='reverse'`
followed by a re-render of the cached data leaves the dimension order
unchanged (no double reverse). -/
theorem render_rerender_idempotent_witness :
    (stateOf (render (stateOf (render {} (some (rowsC2, {}, cfgC2)) 450 300))
        (some (rowsC2.reverse, {}, cfgC2)) 400 250)).data
      = (stateOf (render {} (some (rowsC2, {}, cfgC2)) 450 300)).data :=
  (render_rerender_idempotent {} rowsC2 rowsC2.reverse {} {} cfgC2
    450 300 400 250 (fun _ => rfl) rfl).1

theorem natLog_10_11 : Nat.log 10 11 = 1 := by
  rw [Nat.log_eq_of_pow_le_of_lt_pow] <;> norm_num

theorem intLog_10_11 : Int.log 10 (11 : ℚ) = 1 := by
  rw [Int.log_of_one_le_right _ (by norm_num)]
  norm_num [natLog_10_11]

theorem tickIncrement_0_110 : tickIncrement 0 110 10 = 10 := by
  rw [tickIncrement]
  norm_num [intLog_10_11, natLog_10_11]

theorem niceCore_step1 :
    niceCore 10 (9 + 1) 0 110 none = niceCore 10 9 0 110 (some 10) := by
  rw [niceCore, tickIncrement_0_110, if_neg (by simp), if_pos (by norm_num)]
  norm_num

theorem niceCore_step2 :
    niceCore 10 (8 + 1) 0 110 (some 10) = some (0, 110) := by
  rw [niceCore, tickIncrement_0_110, if_pos rfl]

theorem d3nice_0_110 : d3nice 0 110 = (0, 110) := by
  have h3 : niceCore 10 10 0 110 none = some (0, 110) := by
    have g1 : niceCore 10 10 0 110 none = niceCore 10 9 0 110 (some 10) :=
      niceCore_step1
    have g2 : niceCore 10 9 0 110 (some 10) = some (0, 110) := niceCore_step2
    rw [g1, g2]
  rw [d3nice, if_neg (by norm_num), h3]

/-- C6: for `asc`, the heuristic samples the first 3 dimension values
(native date parse with "Month YYYY" fallback); here all of
"Jan 2024"/"Feb 2024"/"Mar 2024" parse, so ≥ 2 of 3 samples parse, the
column is sorted by parsed timestamp and the output is chronological
regardless of input order (first conjunct, over every permutation and
arbitrary measure payloads).  An unparseable entry among parseable ones
falls back to epoch 0 and sorts first ascending (second conjunct), and
when fewer than 2 of 3 samples parse the sort is lexicographic (third
conjunct). -/
theorem asc_sort_date_heuristic :
    (∀ x y z : Row, x.dimension = "Jan 2024" → y.dimension = "Feb 2024" →
      z.dimension = "Mar 2024" →
      ∀ l ∈ [[x, y, z], [x, z, y], [y, x, z], [y, z, x], [z, x, y], [z, y, x]],
        (sortData "asc" l).map Row.dimension
          = ["Jan 2024", "Feb 2024", "Mar 2024"])
    ∧ (sortData "asc" [⟨"Feb 2024", 0, 0, 0, "", "", ""⟩,
        ⟨"Mar 2024", 0, 0, 0, "", "", ""⟩, ⟨"zzz", 0, 0, 0, "", "", ""⟩]).map
        Row.dimension = ["zzz", "Feb 2024", "Mar 2024"]
    ∧ (sortData "asc" [⟨"b", 0, 0, 0, "", "", ""⟩, ⟨"c", 0, 0, 0, "", "", ""⟩,
        ⟨"a", 0, 0, 0, "", "", ""⟩]).map Row.dimension = ["a", "b", "c"] := by
  have pj : parseDate "Jan 2024" = some 648 := by decide
  have pf : parseDate "Feb 2024" = some 649 := by decide
  have pm : parseDate "Mar 2024" = some 650 := by decide
  refine ⟨?_, by decide, by decide⟩
  intro x y z hx hy hz l hl
  simp only [List.mem_cons, List.not_mem_nil, or_false] at hl
  rcases hl with rfl | rfl | rfl | rfl | rfl | rfl <;>
    simp [sortData, stableSortJs, stableInsert, hx, hy, hz, pj, pf, pm]

/-- Witness for C6: a concrete scrambled month list sorts
chronologically. -/
theorem asc_sort_date_heuristic_witness :
    (sortData "asc" [⟨"Mar 2024", 1, 2, 3, "", "", ""⟩,
      ⟨"Jan 2024", 4, 5, 6, "", "", ""⟩,
      ⟨"Feb 2024", 7, 8, 9, "", "", ""⟩]).map Row.dimension
      = ["Jan 2024", "Feb 2024", "Mar 2024"] :=
  asc_sort_date_heuristic.1 ⟨"Jan 2024", 4, 5, 6, "", "", ""⟩
    ⟨"Feb 2024", 7, 8, 9, "", "", ""⟩ ⟨"Mar 2024", 1, 2, 3, "", "", ""⟩
    rfl rfl rfl _ (by simp)

/-- C5: in dual mode with `syncDualAxis`, no manual min/max overrides and
default zero-inclusion, a row set with bar maximum 100 and line maximum 50
yields the same domain on both Y scales with upper bound
`max(100,50) * 1.1 = 110` (the combined maximum from the larger series,
preserved by `.nice()`). -/
theorem sync_dual_combined_max (data : List Row) (cfg : Config) (w h : ℚ)
    (r : ScaleResult)
    (hmode : cfg.axisMode = "dual") (hsync : cfg.syncDualAxis = true)
    (hlmin : cfg.yAxisLeft.min = none) (hlmax : cfg.yAxisLeft.max = none)
    (hrmin : cfg.yAxisRight.min = none) (hrmax : cfg.yAxisRight.max = none)
    (hlz : cfg.yAxisLeft.includeZero ≠ some false)
    (hrz : cfg.yAxisRight.includeZero ≠ some false)
    (hbm : barMaxOf cfg.barStyle (sortData (jsOrStr cfg.xAxisSort "default") data)
      = some 100)
    (hlm : lineMaxOf (sortData (jsOrStr cfg.xAxisSort "default") data) = some 50)
    (hr : createScales data cfg w h = some r) :
    r.yScaleLeft.d0 = r.yScaleRight.d0 ∧ r.yScaleLeft.d1 = 110
      ∧ r.yScaleRight.d1 = 110 := by
  have hizL : includeZeroOn cfg.yAxisLeft.includeZero = true := by
    rcases hL : cfg.yAxisLeft.includeZero with _ | b
    · rfl
    · cases b
      · exact absurd hL hlz
      · rfl
  have hizR : includeZeroOn cfg.yAxisRight.includeZero = true := by
    rcases hR : cfg.yAxisRight.includeZero with _ | b
    · rfl
    · cases b
      · exact absurd hR hrz
      · rfl
  simp only [createScales, Option.bind_eq_bind, Option.bind_eq_some,
    Option.pure_def, Option.some_inj] at hr
  obtain ⟨bm, hbm2, lm, hlm2, bmn, hbmn, hr⟩ := hr
  rw [hbm] at hbm2
  obtain rfl : bm = 100 := (Option.some.inj hbm2).symm
  rw [hlm] at hlm2
  obtain rfl : lm = 50 := (Option.some.inj hlm2).symm
  rw [hmode, if_pos rfl, hsync, if_pos rfl] at hr
  simp only [Option.bind_eq_bind, Option.bind_eq_some, Option.some_inj] at hr
  obtain ⟨lmn, hlmn, hr⟩ := hr
  rw [← hr]
  have hauto : (max (100 : ℚ) 50) * (11/10) = 110 := by
    rw [max_eq_left (by norm_num)]
    norm_num
  simp only [autoMin, hizL, hizR, if_pos, hlmin, hlmax, hrmin, hrmax,
    selOverride, Option.getD_none, min_self, max_self, hauto, d3nice_0_110]
  refine ⟨?_, trivial, ?_⟩
  · by_cases hv : jsOrStr cfg.lineVerticalPosition "auto" ≠ "auto"
        ∧ jsOrStr cfg.lineVerticalPosition "auto" ≠ "top"
    · simp [hv]
    · simp [hv]
  · by_cases hv : jsOrStr cfg.lineVerticalPosition "auto" ≠ "auto"
        ∧ jsOrStr cfg.lineVerticalPosition "auto" ≠ "top"
    · simp [hv]
    · simp [hv]

/-- C8 (amended): with `barStyle='grouped'`, every rendered bar's width
equals the auto width `(bandWidth - barGap)/2` times `barWidth%/100`; the
width never exceeds the auto width when the percentage is at most 100
(and the gap fits in the band), but the code caps only the group width,
not the bar width, so percentages above 100 do exceed the half-band. -/
theorem grouped_bar_width (cfg : Config) (xs : BandScale) (yL : LinScale)
    (height : ℚ) (data : List Row) (rect : Rect)
    (hg : cfg.barStyle = "grouped")
    (hrect : rect ∈ (renderBarsRects cfg xs yL height data).1
      ∨ rect ∈ (renderBarsRects cfg xs yL height data).2) :
    rect.w = (xs.bandwidth - jsUndef cfg.barGap 4) / 2
      * (jsUndef cfg.barWidth 100 / 100)
    ∧ (0 ≤ (xs.bandwidth - jsUndef cfg.barGap 4) / 2 →
       0 ≤ jsUndef cfg.barWidth 100 → jsUndef cfg.barWidth 100 ≤ 100 →
       rect.w ≤ (xs.bandwidth - jsUndef cfg.barGap 4) / 2) := by
  have hw : rect.w = (xs.bandwidth - jsUndef cfg.barGap 4) / 2
      * (jsUndef cfg.barWidth 100 / 100) := by
    rw [show renderBarsRects cfg xs yL height data
          = (if cfg.barStyle = "grouped" then _ else _) from rfl,
      if_pos hg] at hrect
    rcases hrect with hm | hm <;>
      · obtain ⟨d, hd, rfl⟩ := List.mem_map.mp hm
        rfl
  refine ⟨hw, fun h0 hp hp100 => ?_⟩
  rw [hw]
  calc (xs.bandwidth - jsUndef cfg.barGap 4) / 2 * (jsUndef cfg.barWidth 100 / 100)
      ≤ (xs.bandwidth - jsUndef cfg.barGap 4) / 2 * 1 := by
        apply mul_le_mul_of_nonneg_left _ h0
        linarith
    _ = (xs.bandwidth - jsUndef cfg.barGap 4) / 2 := mul_one _

/-- Config with `barWidth = 150` (percent) for the C8 counterexample. -/
def cfgC8 : Config := { barWidth := some 150 }

/-- Concrete row for the C8/C10 inputs. -/
def dataC8 : List Row := [⟨"A", 10, 20, 5, "", "", ""⟩]

/-- Scale result of the C8 counterexample pass (container 450×300,
band width 300, auto width (300-4)/2 = 148). -/
def rC8 : ScaleResult :=
  (createScales dataC8 cfgC8 450 300).getD
    ⟨[], ⟨[], 0, 0, 0⟩, ⟨0, 0, 0, 0⟩, ⟨0, 0, 0, 0⟩, (0, 0), (0, 0), false⟩

/-- Counterexample to C8 as stated: with `barWidth = 150`, the rendered
bar width is `148 * 1.5 = 222`, exceeding the auto half-band width 148 —
only the group width is capped to the band, not the bar width. -/
theorem bar_width_cap_counterexample :
    cfgC8.barWidth = some 150
    ∧ (renderPassBars dataC8 cfgC8 450 300).map (fun p => p.1.map Rect.w)
        = some [222]
    ∧ (rC8.xScale.bandwidth - jsUndef cfgC8.barGap 4) / 2 = 148
    ∧ ¬ ((222 : ℚ) ≤ 148) := by
  have hx : rC8.xScale = { domain := ["A"], r0 := 0, r1 := 450, padding := 1/5 } :=
    rfl
  have hband : rC8.xScale.bandwidth = 300 := by
    rw [hx]
    simp only [BandScale.bandwidth, BandScale.step, BandScale.inner]
    norm_num [min_def, max_def]
  refine ⟨rfl, ?_, by rw [hband]; norm_num [jsUndef, cfgC8], by norm_num⟩
  show some ((renderBarsRects cfgC8 rC8.xScale rC8.yScaleLeft 300
      rC8.sortedData).1.map Rect.w) = some [222]
  rw [Option.some_inj]
  have hs : rC8.sortedData = dataC8 := rfl
  rw [hs]
  simp only [renderBarsRects]
  rw [if_pos (show cfgC8.barStyle = "grouped" from rfl)]
  simp only [dataC8, List.map_cons, List.map_nil, List.cons.injEq, and_true]
  rw [hband]
  norm_num [jsUndef, cfgC8]

/-- Config with `barWidth = 50` (percent) for the C8 witness. -/
def cfgC8w : Config := { barWidth := some 50 }

/-- Band scale of the C8 witness pass. -/
def xsC8w : BandScale := { domain := ["A"], r0 := 0, r1 := 450, padding := 1/5 }

/-- Left scale of the C8 witness pass. -/
def ylC8w : LinScale := { d0 := 0, d1 := 22, r0 := 300, r1 := 0 }

/-- First bar-1 rectangle of the C8 witness pass. -/
def rectC8w : Rect :=
  ((renderBarsRects cfgC8w xsC8w ylC8w 300 dataC8).1).headD ⟨0, 0, 0, 0⟩

/-- Witness for the amended C8: at a 50% bar width the rendered width is
the auto width times 50/100 and stays within the half-band. -/
theorem grouped_bar_width_witness :
    rectC8w.w = (xsC8w.bandwidth - jsUndef cfgC8w.barGap 4) / 2
      * (jsUndef cfgC8w.barWidth 100 / 100)
    ∧ rectC8w.w ≤ (xsC8w.bandwidth - jsUndef cfgC8w.barGap 4) / 2 := by
  have h := grouped_bar_width cfgC8w xsC8w ylC8w 300 dataC8 rectC8w rfl
    (Or.inl (List.mem_cons_self _ _))
  refine ⟨h.1, h.2 ?_ ?_ ?_⟩
  · simp only [xsC8w, BandScale.bandwidth, BandScale.step, BandScale.inner]
    norm_num [jsUndef, cfgC8w, min_def, max_def]
  · norm_num [jsUndef, cfgC8w]
  · norm_num [jsUndef, cfgC8w]

/-- Config with an explicit `barWidth = 100` for the C10 evaluation. -/
def cfgC10 : Config := { barWidth := some 100 }

/-- C10 at a failing input: with `barWidth = 100` and band width 300
(auto width 148 > 100), `renderBars` interprets `barWidth` as a
percentage and draws the bar-1 rectangle centered at 149, while
`renderLabels` interprets the same setting as an absolute pixel cap and
places the bar-1 label at x = 173 — the label is not at the bar's
horizontal center. -/
theorem bar_label_x_mismatch :
    cfgC10.barWidth = some 100
    ∧ ((renderBarsRects cfgC10 xsC8w ylC8w 300 dataC8).1.map
        (fun rect => rect.x + rect.w / 2)) = [149]
    ∧ (dataC8.map (barLabelXs cfgC10 xsC8w).1) = [173]
    ∧ (149 : ℚ) ≠ 173 := by
  have hidx : (List.indexOf "A" ["A"] : ℕ) = 0 := rfl
  refine ⟨rfl, ?_, ?_, by norm_num⟩
  · simp only [renderBarsRects]
    rw [if_pos (show cfgC10.barStyle = "grouped" from rfl)]
    simp only [dataC8, List.map_cons, List.map_nil, List.cons.injEq, and_true]
    simp only [xsC8w, BandScale.apply, BandScale.start, BandScale.step,
      BandScale.inner, BandScale.bandwidth, hidx]
    norm_num [jsUndef, cfgC10, min_def, max_def]
  · simp only [barLabelXs]
    rw [if_pos (show cfgC10.barStyle = "grouped" from rfl)]
    simp only [dataC8, List.map_cons, List.map_nil, List.cons.injEq, and_true]
    simp only [xsC8w, BandScale.apply, BandScale.start, BandScale.step,
      BandScale.inner, BandScale.bandwidth, hidx]
    norm_num [jsOrQ, jsUndef, cfgC10, min_def, max_def]

/-- Config rendering the legend at the bottom (first C9 render). -/
def cfgL1 : Config := { legendPosition := some "bottom" }

/-- Config moving the legend to the right (second C9 render). -/
def cfgL2 : Config := { legendPosition := some "right" }

/-- Row list for the C9 renders. -/
def rowsC9 : List Row := [⟨"A", 1, 2, 3, "", "", ""⟩]

/-- Engine state after the first C9 render. -/
def stC9a : EngineState := stateOf (render {} (some (rowsC9, {}, cfgL1)) 450 300)

/-- Engine state after the second C9 render (legend position changed, so
a deferred re-render is scheduled). -/
def stC9b : EngineState :=
  stateOf (render stC9a (some (rowsC9, {}, cfgL2)) 450 300)

/-- C9 at the failing input: the first render schedules nothing; changing
the legend position schedules the 50ms deferred re-render; and that
deferred callback invokes `this.render()` with no arguments, so the
`config` parameter is undefined and line 207
(`config.forceAnimationPreview`) throws a TypeError instead of
re-rendering from the cached data, field names and config. -/
theorem legend_deferred_rerender_throws :
    scheduledOf (render {} (some (rowsC9, {}, cfgL1)) 450 300) = some false
    ∧ scheduledOf (render stC9a (some (rowsC9, {}, cfgL2)) 450 300) = some true
    ∧ deferredLegendRerender stC9b 450 300
        = .error "TypeError: cannot read forceAnimationPreview of undefined" :=
  ⟨rfl, rfl, rfl⟩

/-- C1 (amended): a configured non-null axis min or max overrides the
auto-computed endpoint on that side in the pre-`nice` domain — in dual
mode exactly, and in sync mode (also one-sidedly) the configured value
replaces that side's auto value inside the tightest-covering min/max
union, the other side contributing its own selection (its override when
set, else its auto value) — except the shared-mode max, which is applied
through a falsy `||` check and therefore overrides only when it is
non-null and non-zero. -/
theorem axis_override_amended (cfg : Config) (data : List Row) (w h : ℚ)
    (r : ScaleResult) (hr : createScales data cfg w h = some r) :
    (cfg.axisMode = "dual" → cfg.syncDualAxis = false →
      (∀ m, cfg.yAxisLeft.min = some m → r.yLeftPre.1 = m) ∧
      (∀ m, cfg.yAxisLeft.max = some m → r.yLeftPre.2 = m) ∧
      (∀ m, cfg.yAxisRight.min = some m → r.yRightPre.1 = m) ∧
      (∀ m, cfg.yAxisRight.max = some m → r.yRightPre.2 = m)) ∧
    (cfg.axisMode = "dual" → cfg.syncDualAxis = true →
      ∀ bmv lmv bmnv lmnv,
        barMaxOf cfg.barStyle (sortData (jsOrStr cfg.xAxisSort "default") data)
          = some bmv →
        lineMaxOf (sortData (jsOrStr cfg.xAxisSort "default") data) = some lmv →
        barMinOf (sortData (jsOrStr cfg.xAxisSort "default") data) = some bmnv →
        lineMinOf (sortData (jsOrStr cfg.xAxisSort "default") data) = some lmnv →
        (∀ m, cfg.yAxisLeft.min = some m →
          r.yLeftPre.1 = min m (selOverride cfg.yAxisRight.min
            (autoMin cfg.yAxisRight.includeZero lmnv))) ∧
        (∀ m, cfg.yAxisRight.min = some m →
          r.yLeftPre.1 = min (selOverride cfg.yAxisLeft.min
            (autoMin cfg.yAxisLeft.includeZero bmnv)) m) ∧
        (∀ M, cfg.yAxisLeft.max = some M →
          r.yLeftPre.2 = max M (selOverride cfg.yAxisRight.max
            (max bmv lmv * (11/10)))) ∧
        (∀ M, cfg.yAxisRight.max = some M →
          r.yLeftPre.2 = max (selOverride cfg.yAxisLeft.max
            (max bmv lmv * (11/10))) M) ∧
        r.yRightPre = r.yLeftPre) ∧
    (cfg.axisMode ≠ "dual" →
      (∀ m, cfg.yAxisLeft.min = some m → r.yLeftPre.1 = m) ∧
      (∀ M, cfg.yAxisLeft.max = some M → M ≠ 0 → r.yLeftPre.2 = M)) := by
  simp only [createScales, Option.bind_eq_bind, Option.bind_eq_some,
    Option.pure_def, Option.some_inj] at hr
  obtain ⟨bm, hbm, lm, hlm, bmn, hbmn, hr⟩ := hr
  refine ⟨?_, ?_, ?_⟩
  · intro hmode hsync
    rw [hmode, if_pos rfl, hsync, if_neg (by simp)] at hr
    simp only [Option.bind_eq_bind, Option.bind_eq_some, Option.some_inj] at hr
    obtain ⟨lmn, hlmn, hr⟩ := hr
    rw [← hr]
    refine ⟨fun m hm => ?_, fun m hm => ?_, fun m hm => ?_, fun m hm => ?_⟩ <;>
      simp [selOverride, hm]
  · intro hmode hsync bmv lmv bmnv lmnv h1 h2 h3 h4
    rw [hmode, if_pos rfl, hsync, if_pos rfl] at hr
    simp only [Option.bind_eq_bind, Option.bind_eq_some, Option.some_inj] at hr
    obtain ⟨lmn, hlmn, hr⟩ := hr
    rw [hbm] at h1
    obtain rfl : bm = bmv := Option.some.inj h1
    rw [hlm] at h2
    obtain rfl : lm = lmv := Option.some.inj h2
    rw [hbmn] at h3
    obtain rfl : bmn = bmnv := Option.some.inj h3
    rw [hlmn] at h4
    obtain rfl : lmn = lmnv := Option.some.inj h4
    rw [← hr]
    refine ⟨fun m hm => ?_, fun m hm => ?_, fun M hM => ?_, fun M hM => ?_, rfl⟩
    · simp [selOverride, hm]
    · simp [selOverride, hm]
    · simp [selOverride, hM]
    · simp [selOverride, hM]
  · intro hmode
    rw [if_neg hmode] at hr
    simp only [Option.bind_eq_bind, Option.bind_eq_some, Option.some_inj] at hr
    obtain ⟨lmn, hlmn, hr⟩ := hr
    rw [← hr]
    refine ⟨fun m hm => by simp [selOverride, hm], fun M hM hM0 => ?_⟩
    simp [selOverrideFalsy, jsOrQ, hM, hM0]

/-- Concrete shared-mode config with a configured max of 0 for the C1
counterexample. -/
def cfgC1 : Config := { axisMode := "shared", yAxisLeft := { max := some 0 } }

/-- Concrete row for the C1 counterexample. -/
def dataC1 : List Row := [⟨"A", 100, 0, 0, "", "", ""⟩]

/-- Counterexample to C1 as stated: in shared mode with
`yAxisLeft.max = 0` (non-null), the pre-`nice` upper endpoint is the
auto-computed `110`, not the configured `0` — the falsy `||` at line 352
ignores a configured `0`. -/
theorem axis_override_zero_counterexample :
    cfgC1.yAxisLeft.max = some 0
    ∧ (createScales dataC1 cfgC1 450 300).map (fun r => r.yLeftPre.2)
        = some 110
    ∧ (createScales dataC1 cfgC1 450 300).map (fun r => r.yLeftPre.2)
        ≠ some 0 := by
  have h1 : (createScales dataC1 cfgC1 450 300).map (fun r => r.yLeftPre.2)
      = some (selOverrideFalsy (some 0) (max (max 100 0) 0 * (11/10))) := rfl
  have h2 : selOverrideFalsy (some 0) (max (max 100 0) 0 * (11/10)) = 110 := by
    simp only [selOverrideFalsy, jsOrQ, ne_eq, not_true_eq_false, if_false,
      ite_self]
    norm_num [max_def]
  refine ⟨rfl, by rw [h1, h2], by rw [h1, h2]; simp⟩

/-- Dual-mode config with all four overrides set, for the C1 witness. -/
def cfgC1w : Config :=
  { axisMode := "dual", syncDualAxis := false,
    yAxisLeft := { min := some 3, max := some 7 },
    yAxisRight := { min := some 2, max := some 9 } }

/-- Concrete scale result for the C1 witness. -/
def rC1w : ScaleResult :=
  (createScales dataC1 cfgC1w 450 300).getD
    ⟨[], ⟨[], 0, 0, 0⟩, ⟨0, 0, 0, 0⟩, ⟨0, 0, 0, 0⟩, (0, 0), (0, 0), false⟩

/-- Sync-mode config with only the left max configured, for the C1
witness's one-sided-override case. -/
def cfgC1s : Config :=
  { axisMode := "dual", syncDualAxis := true, yAxisLeft := { max := some 7 } }

/-- Concrete scale result for the sync-mode part of the C1 witness. -/
def rC1s : ScaleResult :=
  (createScales dataC1 cfgC1s 450 300).getD
    ⟨[], ⟨[], 0, 0, 0⟩, ⟨0, 0, 0, 0⟩, ⟨0, 0, 0, 0⟩, (0, 0), (0, 0), false⟩

/-- Witness for the amended C1: in dual non-sync mode every configured
endpoint lands in the pre-`nice` domains, and in sync mode a lone
configured left max enters the union against the other side's auto
combined max (`max 7 110 = 110`). -/
theorem axis_override_amended_witness :
    rC1w.yLeftPre.1 = 3 ∧ rC1w.yLeftPre.2 = 7
      ∧ rC1w.yRightPre.1 = 2 ∧ rC1w.yRightPre.2 = 9
      ∧ rC1s.yLeftPre.2 = 110 := by
  have h := (axis_override_amended cfgC1w dataC1 450 300 rC1w rfl).1 rfl rfl
  have hs := (axis_override_amended cfgC1s dataC1 450 300 rC1s rfl).2.1 rfl rfl
    (max 100 0) 0 (min 100 0) 0 rfl rfl rfl rfl
  have h7 := hs.2.2.1 7 rfl
  refine ⟨h.1 3 rfl, h.2.1 7 rfl, h.2.2.1 2 rfl, h.2.2.2 9 rfl, ?_⟩
  rw [h7]
  norm_num [selOverride, cfgC1s, max_def]

/-- Concrete rows for the C5 witness (bar max 100, line max 50). -/
def rowsC5 : List Row :=
  [⟨"A", 100, 50, 50, "", "", ""⟩, ⟨"B", 20, 30, 10, "", "", ""⟩]

/-- Concrete sync-dual config for the C5 witness. -/
def cfgC5 : Config := { axisMode := "dual", syncDualAxis := true }

/-- Placeholder scale result used as a `getD` default by the witnesses. -/
def scaleResultDefault : ScaleResult :=
  ⟨[], ⟨[], 0, 0, 0⟩, ⟨0, 0, 0, 0⟩, ⟨0, 0, 0, 0⟩, (0, 0), (0, 0), false⟩

/-- Concrete shared-mode scale result for the C4 witness. -/
def rC4 : ScaleResult :=
  (createScales [⟨"A", 10, 20, 5, "", "", ""⟩]
    ({ axisMode := "shared" } : Config) 450 300).getD scaleResultDefault

/-- Concrete sync-dual scale result for the C5 witness. -/
def rC5 : ScaleResult :=
  (createScales rowsC5 cfgC5 450 300).getD scaleResultDefault

/-- Witness for C5 at concrete rows with bar max 100 and line max 50. -/
theorem sync_dual_combined_max_witness :
    rC5.yScaleLeft.d1 = 110 ∧ rC5.yScaleRight.d1 = 110
      ∧ rC5.yScaleLeft.d0 = rC5.yScaleRight.d0 :=
  have h := sync_dual_combined_max rowsC5 cfgC5 450 300 rC5 rfl rfl rfl rfl
    rfl rfl (by simp [cfgC5]) (by simp [cfgC5])
    (by
      show barMaxOf "grouped" rowsC5 = some 100
      rw [barMaxOf, if_neg (by decide)]
      simp only [d3maxBy, rowsC5]
      norm_num [max_def])
    (by
      show lineMaxOf rowsC5 = some 50
      simp only [lineMaxOf, d3maxBy, rowsC5]
      norm_num [max_def])
    rfl
  ⟨h.2.1, h.2.2, h.1⟩

/-- Witness for C4 at a concrete shared-mode input. -/
theorem shared_axis_alias_witness :
    rC4.yScaleRight = rC4.yScaleLeft ∧ rC4.rightIsAlias = true :=
  ⟨(shared_axis_alias [⟨"A", 10, 20, 5, "", "", ""⟩] { axisMode := "shared" }
      450 300 rC4 rfl rfl).1,
   (shared_axis_alias [⟨"A", 10, 20, 5, "", "", ""⟩] { axisMode := "shared" }
      450 300 rC4 rfl rfl).2.1⟩

end ComboSpec
